import Mathlib

/-!
Verification of the core behaviours of a multi-tenant WhatsApp auto-responder
(persona-conditioned reply pipeline, session lifecycle, persistence queue)
against its natural-language specification.

The TypeScript sources are shallowly embedded: JavaScript strings become
`List Char`, JavaScript numbers become `ℚ`/`ℤ`/`Nat` as appropriate, the
`Map` objects become association lists, and every embedded function mirrors
the corresponding source function statement by statement.  File/line
references in the doc comments point into the repository sources.
-/

set_option maxRecDepth 100000

/-- Character strings are modelled as lists of characters. -/
abbrev Str := List Char

/-- Whitespace test used by the JavaScript string trimming functions
(ASCII subset; the sources only ever deal in these). -/
def isWsChar (c : Char) : Bool := c = ' ' || c = '\t' || c = '\n' || c = '\r'

/-- JavaScript `String.prototype.trim`: strip leading and trailing whitespace. -/
def jsTrim (s : Str) : Str :=
  ((s.dropWhile isWsChar).reverse.dropWhile isWsChar).reverse

/-- JavaScript `String.prototype.toLowerCase` (ASCII). -/
def jsToLower (s : Str) : Str := s.map Char.toLower

/-- JavaScript `String.prototype.includes`: substring test. -/
def jsIncludes (hay needle : Str) : Bool :=
  if needle.isPrefixOf hay then true
  else
    match hay with
    | [] => false
    | _ :: t => jsIncludes t needle

/-- JavaScript `arr.slice(-n)`: the last `n` elements, except that
`slice(-0)` is `slice(0)`, i.e. the whole array. -/
def jsSliceNeg (n : Nat) (l : List α) : List α :=
  if n = 0 then l else l.drop (l.length - n)

/-! ## configManager.ts -/

/-- Result of the JavaScript `Number(value)` coercion: either `NaN`
or an actual number (modelled as a rational). -/
inductive JsNum where
  | nan : JsNum
  | num : ℚ → JsNum

/-- Constant `DEFAULT_CONTEXT_WINDOW` from `src/constants.ts`. -/
def DEFAULT_CONTEXT_WINDOW : ℤ := 50

/-- Constant `MIN_CONTEXT_WINDOW` from `src/constants.ts`. -/
def MIN_CONTEXT_WINDOW : ℤ := 10

/-- Constant `MAX_CONTEXT_WINDOW` from `src/constants.ts`. -/
def MAX_CONTEXT_WINDOW : ℤ := 1000

/-- Embedding of `clampContextWindow` from
`src/services/session/configManager.ts` (lines 20-32).  The argument is the
result of the `Number(value)` coercion; `Math.round` rounds half away from
zero upwards, i.e. `Math.round(x) = ⌊x + 1/2⌋`. -/
def clampContextWindow : JsNum → ℤ
  | .nan => DEFAULT_CONTEXT_WINDOW
  | .num q =>
    if q < (MIN_CONTEXT_WINDOW : ℚ) then MIN_CONTEXT_WINDOW
    else if (MAX_CONTEXT_WINDOW : ℚ) < q then MAX_CONTEXT_WINDOW
    else ⌊q + 1/2⌋

/-! ## messageHandler.ts: the per-chat stop list -/

/-- Constant `STOP_TIMEOUT_MS` (24 hours) from `src/constants.ts`. -/
def STOP_TIMEOUT_MS : ℤ := 24 * 60 * 60 * 1000

/-- Per-chat stop list: chat id to the `Date.now()` timestamp recorded by
the `!stop` command.  Timestamps are integers (milliseconds). -/
abbrev StopList := List (Str × ℤ)

/-- Remove a key from an association list (JavaScript `Map.delete`). -/
def assocErase (l : List (Str × β)) (k : Str) : List (Str × β) :=
  l.filter (fun kv => kv.1 ≠ k)

/-- Embedding of the per-chat stop check in the inbound message handler,
`src/services/session/messageHandler.ts` lines 358-363:

    const stopTime = current.stopList.get(chatId);
    if (stopTime && Date.now() - stopTime < STOP_TIMEOUT_MS) { return; }
    else if (stopTime) { current.stopList.delete(chatId); }

Returns `(dropped, updated stop list)`.  A missing entry is `none`; the
JavaScript truthiness of `stopTime` makes a (never occurring in practice)
zero timestamp behave like a missing entry. -/
def stopListCheck (stopList : StopList) (chatId : Str) (now : ℤ) :
    Bool × StopList :=
  match stopList.lookup chatId with
  | none => (false, stopList)
  | some stopTime =>
    if stopTime ≠ 0 ∧ now - stopTime < STOP_TIMEOUT_MS then (true, stopList)
    else if stopTime ≠ 0 then (false, assocErase stopList chatId)
    else (false, stopList)

/-! ## messageHandler.ts: command processing -/

/-- Global stop flag with its activation timestamp
(field `globalStop` of the session state). -/
structure GlobalStop where
  active : Bool
  since : ℤ
deriving DecidableEq

/-- Slice of the session state read and written by `processCommands`. -/
structure CommandState where
  globalStop : GlobalStop
  stopList : StopList
deriving DecidableEq

/-- Outcome of `processCommands`: whether the message was consumed as a
command, the updated state, and the reply text sent (if any).  Reply texts
are represented by which branch produced them; the exact wording is not
load-bearing for any claim. -/
structure CommandOutcome where
  handled : Bool
  state : CommandState
  replied : Bool
deriving DecidableEq

/-- Embedding of `processCommands` from
`src/services/session/messageHandler.ts` (lines 180-254).  `body` is the raw
message body (`none` when `msg.body` is not a string), `chatId` the resolved
chat id (`none` when missing), `isOwner` the result of `isBotOwner`,
`now` the current time.  Media/client guards that always hold in the states
relevant to the claims are not modelled. -/
def processCommands (isOwner : Bool) (body : Option Str) (chatId : Option Str)
    (now : ℤ) (st : CommandState) : CommandOutcome :=
  match body with
  | none => ⟨false, st, false⟩
  | some raw =>
    let text := jsTrim raw
    if text = [] then ⟨false, st, false⟩
    else
      let commandText := jsToLower text
      if isOwner ∧ commandText = ("!stopall").toList then
        let alreadyStopped := st.globalStop.active
        let st :=
          if ¬ alreadyStopped then
            { st with globalStop := ⟨true, now⟩ }
          else st
        ⟨true, st, true⟩
      else if isOwner ∧ commandText = ("!startall").toList then
        ⟨true, { globalStop := ⟨false, 0⟩, stopList := [] }, true⟩
      else
        match chatId with
        | none => ⟨false, st, false⟩
        | some chat =>
          if commandText = ("!stop").toList then
            ⟨true, { st with stopList := assocSet st.stopList chat now }, true⟩
          else if commandText = ("!start").toList then
            if (st.stopList.lookup chat).isSome then
              ⟨true, { st with stopList := assocErase st.stopList chat }, true⟩
            else ⟨true, st, true⟩
          else ⟨false, st, false⟩
where
  /-- JavaScript `Map.set`: overwrite in place or append. -/
  assocSet (l : StopList) (k : Str) (v : ℤ) : StopList :=
    if (l.lookup k).isSome then
      l.map (fun kv => if kv.1 = k then (k, v) else kv)
    else l ++ [(k, v)]

/-! ## messageHandler.ts: custom reply matching -/

/-- Custom reply rule as produced by `sanitizeCustomReplies`
(`src/services/session/utils.ts`): trigger, response, raw match type
string, and the precompiled case-insensitive regular expression (opaque
test function over the original-case text), present only for valid
`regex` rules. -/
structure CustomReplyRule where
  trigger : Str
  response : Str
  matchType : Str
  regex : Option (Str → Bool) := none

/-- Matching of a single rule against the incoming text: the `switch`
body of `findCustomReply`, `src/services/session/messageHandler.ts`
lines 773-795.  The `default` case of the switch treats every match type
other than `exact`, `startsWith`, `regex` like `contains`. -/
def ruleMatches (rule : CustomReplyRule) (text : Str) : Bool :=
  let lowerText := jsToLower text
  if rule.matchType = ("exact").toList then
    lowerText = jsToLower rule.trigger
  else if rule.matchType = ("startsWith").toList then
    (jsToLower rule.trigger).isPrefixOf lowerText
  else if rule.matchType = ("regex").toList then
    match rule.regex with
    | some rx => rx text
    | none => false
  else
    jsIncludes lowerText (jsToLower rule.trigger)

/-- Embedding of `findCustomReply` from
`src/services/session/messageHandler.ts` (lines 763-799): first matching
rule in list order wins; rules with an empty trigger or response are
skipped (`if (!rule?.trigger || !rule?.response) continue`). -/
def findCustomReply : List CustomReplyRule → Str → Option Str
  | [], _ => none
  | rule :: rest, text =>
    if rule.trigger = [] ∨ rule.response = [] then findCustomReply rest text
    else if ruleMatches rule text then some rule.response
    else findCustomReply rest text

/-! ## personaProfiler.ts -/

/-- Constant `USER_MESSAGE_PREFIX` from `src/types/persona.ts`. -/
def userMessageLabel : Str := ("User: ").toList

/-- Constant `HUMAN_REPLY_PREFIX` from `src/types/persona.ts`. -/
def humanReplyLabel : Str := ("My reply: ").toList

/-- Label used by `persistBatch` for AI-generated outgoing messages
(`src/services/persistence/chatPersistenceService.ts`). -/
def aiReplyLabel : Str := ("AI reply: ").toList

/-- Helper `clean` from `src/services/session/personaProfiler.ts`
(line 44): trim, with non-strings coerced to the empty string. -/
def clean (s : Str) : Str := jsTrim s

/-- Stored chat message as returned by `getChatMessages`: only the
`message` field is read by the profiler (the timestamp is not). -/
structure StoredMsg where
  message : Str
deriving DecidableEq

/-- Persona example: optional user side and reply side.  A missing user
side is the empty string (the source pushes `{ reply }` without `user`,
and `clean(undefined)` is the empty string). -/
structure PersonaExample where
  user : Str
  reply : Str
deriving DecidableEq

/-- Result record of `extractContactPersonaData`. -/
structure PersonaExtraction where
  replies : List Str
  examples : List PersonaExample
deriving DecidableEq

/-- Accumulator of the message loop in `extractContactPersonaData`. -/
structure ExtractAcc where
  pendingUser : List Str
  replies : List Str
  examples : List PersonaExample
deriving DecidableEq

/-- Loop body of `extractContactPersonaData`
(`src/services/session/personaProfiler.ts` lines 61-89): user-labelled
messages accumulate into `pendingUser` (last three kept), human-reply
labelled messages emit a reply and an example (paired with the joined
pending user messages when present); all other messages are skipped. -/
def extractStep (acc : ExtractAcc) (record : StoredMsg) : ExtractAcc :=
  let raw := clean record.message
  if raw = [] then acc
  else if userMessageLabel.isPrefixOf raw then
    let userText := clean (raw.drop userMessageLabel.length)
    if userText = [] then acc
    else
      let pend := acc.pendingUser ++ [userText]
      { acc with pendingUser := if 3 < pend.length then pend.drop 1 else pend }
  else if humanReplyLabel.isPrefixOf raw then
    let replyText := clean (raw.drop humanReplyLabel.length)
    if replyText = [] then acc
    else if acc.pendingUser ≠ [] then
      { pendingUser := []
        replies := acc.replies ++ [replyText]
        examples := acc.examples ++
          [⟨List.intercalate ((" / ").toList) acc.pendingUser, replyText⟩] }
    else
      { acc with
        replies := acc.replies ++ [replyText]
        examples := acc.examples ++ [⟨[], replyText⟩] }
  else acc

/-- Constant `STATS_SAMPLE_LIMIT` from `personaProfiler.ts`. -/
def STATS_SAMPLE_LIMIT : Nat := 200

/-- Embedding of `extractContactPersonaData` from
`src/services/session/personaProfiler.ts` (lines 48-95). -/
def extractContactPersonaData (messages : List StoredMsg) (exampleLimit : Nat) :
    PersonaExtraction :=
  if messages = [] then ⟨[], []⟩
  else
    let trimmed := jsSliceNeg (max (exampleLimit * 6) 60) messages
    let acc := trimmed.foldl extractStep ⟨[], [], []⟩
    ⟨jsSliceNeg STATS_SAMPLE_LIMIT acc.replies, jsSliceNeg exampleLimit acc.examples⟩

/-- Embedding of `buildStandaloneExamples` from
`src/services/session/personaProfiler.ts` (lines 97-107). -/
def buildStandaloneExamples (replies : List Str) (exampleLimit : Nat) :
    List PersonaExample :=
  (jsSliceNeg exampleLimit ((replies.map clean).filter (· ≠ []))).map
    (fun r => ⟨[], r⟩)

/-- Persona source tag. -/
inductive PersonaSource where
  | contact
  | universal
  | bootstrap
deriving DecidableEq

/-- Persona profile.  Only the fields inspected by the claims are
modelled; the derived English summary and guideline sentences of
`buildPersonaProfile` have no bearing on any claim and are omitted. -/
structure PersonaProfile where
  source : PersonaSource
  examples : List PersonaExample
deriving DecidableEq

/-- Embedding of `buildPersonaProfile` from
`src/services/session/personaProfiler.ts` (lines 109-154): inputs are
defensively cleaned; when no reply survives cleaning the fixed bootstrap
profile is returned, otherwise the requested source is kept. -/
def buildPersonaProfile (source : PersonaSource) (replies : List Str)
    (examples : List PersonaExample) (exampleLimit : Nat) : PersonaProfile :=
  let trimmedReplies := (replies.map clean).filter (· ≠ [])
  let trimmedExamples :=
    jsSliceNeg exampleLimit
      ((examples.map (fun e => (⟨clean e.user, clean e.reply⟩ : PersonaExample))).filter
        (fun e => e.reply ≠ []))
  if trimmedReplies = [] then ⟨.bootstrap, trimmedExamples⟩
  else ⟨source, trimmedExamples⟩

/-- Constant `CONTACT_PERSONA_MIN_MESSAGES` from
`src/services/session/messageHandler.ts` (line 19). -/
def CONTACT_PERSONA_MIN_MESSAGES : Nat := 1000

/-- Example limit computed in `loadPersonaProfile`
(`src/services/session/messageHandler.ts` lines 619-622):
`Math.min(8, Math.max(3, Math.floor(contextWindow / 5) || 0))`. -/
def exampleLimitOf (contextWindow : Nat) : Nat :=
  min 8 (max 3 (contextWindow / 5))

/-- Embedding of the `loadPersonaProfile` closure from
`src/services/session/messageHandler.ts` (lines 584-689).
`chatMessages` is the persisted contact log after the in-handler WhatsApp
history import has run (the import itself talks to the transport client
and is modelled by its effect on this list); `universalMessages` is the
universal persona corpus of the session; `contextWindow` the clamped
context window. -/
def loadPersonaProfile (chatMessages : List StoredMsg)
    (universalMessages : List Str) (contextWindow : Nat) : PersonaProfile :=
  let exampleLimit := exampleLimitOf contextWindow
  let contactData := extractContactPersonaData chatMessages exampleLimit
  if CONTACT_PERSONA_MIN_MESSAGES ≤ chatMessages.length ∧
      3 ≤ contactData.examples.length then
    buildPersonaProfile .contact contactData.replies contactData.examples
      exampleLimit
  else
    let cleanedReplies := (universalMessages.map jsTrim).filter (· ≠ [])
    if cleanedReplies ≠ [] then
      buildPersonaProfile .universal cleanedReplies
        (buildStandaloneExamples cleanedReplies exampleLimit) exampleLimit
    else
      buildPersonaProfile .bootstrap [] [] exampleLimit

/-! ## chatPersistenceService.ts: labels, batches and buffers -/

/-- Message direction. -/
inductive Direction where
  | incoming
  | outgoing
deriving DecidableEq

/-- Buffered message entry (`MessageEntry` in
`src/services/persistence/chatPersistenceService.ts`).  The timestamp is
not modelled: no claim depends on it. -/
structure QueuedMessage where
  sessionCode : Str
  contactId : Str
  direction : Direction
  message : Str
  isAiGenerated : Bool
deriving DecidableEq

/-- Label attached by `persistBatch`
(`chatPersistenceService.ts` lines 412-424): `User: ` for incoming,
`AI reply: ` for AI-generated outgoing, `My reply: ` for human outgoing. -/
def labelMessage (m : QueuedMessage) : Str :=
  if m.direction = .incoming then userMessageLabel ++ m.message
  else if m.isAiGenerated then aiReplyLabel ++ m.message
  else humanReplyLabel ++ m.message

/-- Labelled entries stored for a batch by `persistBatch`
(the `entries` array, with the empty-message filter). -/
def persistBatchEntries (messages : List QueuedMessage) : List Str :=
  (messages.filter (fun m => m.message ≠ [])).map labelMessage

/-- Selection of messages appended to the universal persona corpus by
`persistBatches` (`chatPersistenceService.ts` lines 380-383): only
human-written outgoing messages. -/
def universalSelection (messages : List QueuedMessage) : List Str :=
  (messages.filter (fun e => e.direction = .outgoing ∧ ¬ e.isAiGenerated)).map
    (fun e => e.message)

/-- Constant `MAX_MESSAGES_PER_CONTACT`. -/
def MAX_MESSAGES_PER_CONTACT : Nat := 1000

/-- Constant `MAX_BUFFER_SIZE = MAX_MESSAGES_PER_CONTACT * 2`. -/
def MAX_BUFFER_SIZE : Nat := MAX_MESSAGES_PER_CONTACT * 2

/-- Constant `MAX_TOTAL_BUFFER_SIZE`. -/
def MAX_TOTAL_BUFFER_SIZE : Nat := 10000

/-- In-memory pending buffer map, key to buffered messages.  A JavaScript
`Map` keyed by `"sessionCode::contactId"` strings; keys are unique. -/
abbrev Buffers := List (Str × List QueuedMessage)

/-- Total number of buffered messages across all contacts (the
`totalBufferSize` computation in `queueMessageForPersistence`). -/
def totalBuffered (b : Buffers) : Nat :=
  (b.map (fun kv => kv.2.length)).sum

/-- Embedding of `sanitizeMessage`
(`chatPersistenceService.ts` lines 148-152): trim, cap at 4000 chars. -/
def sanitizeMessage (input : Str) : Str :=
  let trimmed := jsTrim input
  if trimmed.length ≤ 4000 then trimmed else trimmed.take 4000

/-- Embedding of `getBufferKey`. -/
def getBufferKey (sessionCode contactId : Str) : Str :=
  sessionCode ++ ("::").toList ++ contactId

/-- JavaScript `Map.get(k) ?? []`. -/
def bufGet (b : Buffers) (k : Str) : List QueuedMessage :=
  (b.lookup k).getD []

/-- JavaScript `Map.set`: overwrite in place or append at the end. -/
def bufSet (b : Buffers) (k : Str) (v : List QueuedMessage) : Buffers :=
  if (b.lookup k).isSome then
    b.map (fun kv => if kv.1 = k then (k, v) else kv)
  else b ++ [(k, v)]

/-- Chat id fragment `@broadcast`. -/
def broadcastTag : Str := ("@broadcast").toList

/-- Chat id fragment `status@broadcast`. -/
def statusBroadcastTag : Str := ("status@broadcast").toList

/-- Chat id fragment `@newsletter`. -/
def newsletterTag : Str := ("@newsletter").toList

/-- Arguments of `queueMessageForPersistence` (the timestamp is not
modelled: no claim depends on it). -/
structure QueueArgs where
  sessionCode : Str
  contactId : Str
  direction : Direction
  message : Str
  isGroup : Bool := false
  isBroadcast : Bool := false
  hasMedia : Bool := false
  isAiGenerated : Bool := false

/-- Result of one `queueMessageForPersistence` call: the updated buffers,
whether the global-cap forced flush was attempted, and whether the
per-contact retention threshold triggered an immediate flush. -/
structure QueueResult where
  buffers : Buffers
  globalFlushTriggered : Bool
  contactFlushTriggered : Bool

/-- Embedding of `queueMessageForPersistence` from
`src/services/persistence/chatPersistenceService.ts` (lines 182-273).
The flush attempts themselves are asynchronous storage operations; here
they are reported as the two trigger flags. -/
def queueMessageForPersistence (st : Buffers) (a : QueueArgs) : QueueResult :=
  if a.sessionCode = [] ∨ a.contactId = [] then ⟨st, false, false⟩
  else if a.isGroup || a.isBroadcast || a.hasMedia then ⟨st, false, false⟩
  else if jsIncludes a.contactId broadcastTag ||
      jsIncludes a.contactId statusBroadcastTag ||
      jsIncludes a.contactId newsletterTag then ⟨st, false, false⟩
  else
    let safeMessage := sanitizeMessage a.message
    if safeMessage = [] then ⟨st, false, false⟩
    else
      let totalBufferSize := totalBuffered st
      let globalFlush := MAX_TOTAL_BUFFER_SIZE ≤ totalBufferSize
      let key := getBufferKey a.sessionCode a.contactId
      let buffer := bufGet st key ++
        [⟨a.sessionCode, a.contactId, a.direction, safeMessage, a.isAiGenerated⟩]
      let buffer :=
        if MAX_BUFFER_SIZE < buffer.length then
          buffer.drop (buffer.length - MAX_BUFFER_SIZE)
        else buffer
      ⟨bufSet st key buffer, globalFlush,
        MAX_MESSAGES_PER_CONTACT ≤ buffer.length⟩

/-- Descending order on buffer length used by the emergency policy
(the comparator `(a, b) => b[1].length - a[1].length`). -/
def lenDescRel (x y : Str × List QueuedMessage) : Prop :=
  y.2.length ≤ x.2.length

instance : DecidableRel lenDescRel := fun x y =>
  inferInstanceAs (Decidable (y.2.length ≤ x.2.length))

instance : IsTotal (Str × List QueuedMessage) lenDescRel :=
  ⟨fun x y => (Nat.le_total y.2.length x.2.length).imp id id⟩

instance : IsTrans (Str × List QueuedMessage) lenDescRel :=
  ⟨fun _ _ _ hxy hyz => Nat.le_trans hyz hxy⟩

/-- Buffers sorted by descending buffer length
(`Array.from(pendingMessages.entries()).sort((a, b) => b[1].length - a[1].length)`).
The relative order of equal-length buffers is irrelevant to every
property proved below. -/
def sortByLenDesc (b : Buffers) : Buffers := b.insertionSort lenDescRel

/-- Keys of the `Math.min(3, sorted.length)` largest buffers selected by
the emergency policy. -/
def trimVictims (b : Buffers) : List Str :=
  ((sortByLenDesc b).take 3).map (fun kv => kv.1)

/-- Embedding of the emergency trimming run when the forced flush fails
(`chatPersistenceService.ts` lines 231-240): the two or three largest
buffers lose their older half, `buf.splice(0, Math.floor(buf.length / 2))`.
Map keys are unique, so trimming the entries whose key is among the top
`min(3, n)` keys is trimming exactly those entries. -/
def emergencyTrimLargestBuffers (b : Buffers) : Buffers :=
  b.map (fun kv =>
    if (trimVictims b).contains kv.1 then (kv.1, kv.2.drop (kv.2.length / 2))
    else kv)

/-! ## utils.ts: fragmented delivery -/

/-- Sentence-terminating characters of the regex `[^.!?]+[.!?]+`. -/
def isTermChar (c : Char) : Bool := c = '.' || c = '!' || c = '?'

/-- Clause separators of the regex `[:;,\n-]+`. -/
def isClauseSepChar (c : Char) : Bool :=
  c = ':' || c = ';' || c = ',' || c = '\n' || c = '-'

/-- Worker for `splitRuns`, structurally recursive on a fuel bound (each
produced piece consumes at least one separator character, so any fuel
above the string length is enough). -/
def splitRunsGo (p : Char → Bool) : Nat → Str → List Str
  | 0, _ => []
  | fuel + 1, s =>
    match s.dropWhile (fun c => !p c) with
    | [] => [s.takeWhile (fun c => !p c)]
    | _ :: t => s.takeWhile (fun c => !p c) :: splitRunsGo p fuel (t.dropWhile p)

/-- JavaScript `String.prototype.split` on a regex matching nonempty runs
of separator characters: the pieces between maximal separator runs,
including an empty leading/trailing piece when the string starts/ends
with a separator. -/
def splitRuns (p : Char → Bool) (s : Str) : List Str :=
  splitRunsGo p (s.length + 1) s

/-- Worker for `sentencesOf`, structurally recursive on a fuel bound
(each match consumes at least two characters, so any fuel above the
string length is enough). -/
def sentencesGo : Nat → Str → List Str
  | 0, _ => []
  | fuel + 1, s =>
    let s1 := s.dropWhile isTermChar
    match s1.dropWhile (fun c => !isTermChar c) with
    | [] => []
    | _ :: t =>
      (s1.takeWhile (fun c => !isTermChar c) ++
          (s1.dropWhile (fun c => !isTermChar c)).takeWhile isTermChar) ::
        sentencesGo fuel (t.dropWhile isTermChar)

/-- Successive matches of the global regex `[^.!?]+[.!?]+` (the sentence
splitter of `sendFragmentedReply`): each match is a maximal run of
non-terminator characters followed by the maximal run of terminators;
positions that cannot start a match are skipped and trailing text with no
terminator is not matched. -/
def sentencesOf (s : Str) : List Str :=
  sentencesGo (s.length + 1) s

/-- Loop body of the word-boundary packing in `sendFragmentedReply`
(`src/services/session/utils.ts` lines 175-187): state is
`(fragments, currentFragment)`. -/
def packStep (st : List Str × Str) (word : Str) : List Str × Str :=
  let test := if st.2 = [] then word else st.2 ++ (" ").toList ++ word
  if 80 < test.length ∧ st.2 ≠ [] then (st.1 ++ [st.2], word) else (st.1, test)

/-- Word-boundary packing of a single long sentence into fragments of at
most about 80 characters (`utils.ts` lines 170-192). -/
def packWords (words : List Str) : List Str :=
  let st := words.foldl packStep ([], [])
  if st.2 ≠ [] then st.1 ++ [st.2] else st.1

/-- Embedding of `sendFragmentedReply` from `src/services/session/utils.ts`
(lines 129-226), as the ordered list of text fragments handed to
`safeReply` (the inter-fragment delays and the voice conversion do not
change the texts). -/
def fragmentsOf (full : Str) : List Str :=
  if full.length ≤ 60 then [full]
  else
    let sentences :=
      match sentencesOf full with
      | [] => [full]
      | m => m
    if sentences.length = 1 ∧ 100 < (sentences.headD []).length then
      let s0 := sentences.headD []
      let clauses := splitRuns isClauseSepChar s0
      if 1 < clauses.length then (clauses.map jsTrim).filter (· ≠ [])
      else packWords (splitRuns isWsChar s0)
    else (sentences.map jsTrim).filter (· ≠ [])

/-! ## chatHistory.ts and configManager.ts: the history ring -/

/-- Role of an in-memory chat history entry. -/
inductive ChatRole where
  | user
  | assistant
deriving DecidableEq

/-- In-memory chat message (`ChatMessage` in chatHistory.ts). -/
structure HistMsg where
  role : ChatRole
  text : Str
  timestamp : ℤ
deriving DecidableEq

/-- Per-chat record stored in the history ring (`ChatHistory` in
`src/services/session/chatHistory.ts` lines 20-24): the message array
plus the last-access timestamp. -/
structure ChatHistoryRec where
  messages : List HistMsg
  lastAccessed : ℤ
deriving DecidableEq

/-- JavaScript property read `history.length` where `history` is a
`ChatHistory` record `{ messages, lastAccessed }`: plain objects have no
`length` property, so the read yields `undefined` (`none`). -/
def jsLengthProperty (_ : ChatHistoryRec) : Option Nat := none

/-- JavaScript comparison `x > limit` where `x` may be `undefined`:
`undefined > limit` is `false`. -/
def jsUndefGt : Option Nat → ℤ → Bool
  | none, _ => false
  | some n, m => m < (n : ℤ)

/-- Embedding of the truncation loop of `updateAiConfig`
(`src/services/session/configManager.ts` lines 55-60):

    for (const [chatId, history] of session.chatHistory.entries()) {
      if (history.length > limit) {
        session.chatHistory.set(chatId, history.slice(-limit));
      }
    }

The guard reads the `length` property of the `ChatHistory` record.  The
then branch (which in the source would call `slice` on the record) is
modelled as slicing the message array; it is unreachable because the
guard is always false. -/
def updateAiConfigHistoryPass (limit : ℤ)
    (hist : List (Str × ChatHistoryRec)) : List (Str × ChatHistoryRec) :=
  hist.map fun kv =>
    if jsUndefGt (jsLengthProperty kv.2) limit then
      (kv.1, { kv.2 with messages := jsSliceNeg limit.toNat kv.2.messages })
    else kv

/-- Slice of the per-session AI configuration relevant to the context
window claims. -/
structure AiCfgSlice where
  contextWindow : ℤ
deriving DecidableEq

/-- Slice of the session state touched by `updateAiConfig` and the
history ring. -/
structure SessionSlice where
  aiConfig : AiCfgSlice
  chatHistory : List (Str × ChatHistoryRec)
deriving DecidableEq

/-- Embedding of `updateAiConfig` from
`src/services/session/configManager.ts` (lines 34-72), restricted to the
context-window field and the history truncation pass.  `reqContextWindow`
is the `config.contextWindow` of the update payload (`none` when the
payload omits it, in which case `??` falls back to the stored value). -/
def updateAiConfig (session : SessionSlice) (reqContextWindow : Option JsNum) :
    SessionSlice :=
  let next := clampContextWindow
    (reqContextWindow.getD (.num (session.aiConfig.contextWindow : ℚ)))
  ⟨⟨next⟩, updateAiConfigHistoryPass next session.chatHistory⟩

/-- Embedding of the trim step of `appendHistoryEntry`
(`src/services/session/chatHistory.ts` lines 101-107): after pushing, the
message array is spliced from the front down to the clamped window. -/
def appendHistoryTrim (limit : ℤ) (messages : List HistMsg) : List HistMsg :=
  if limit < (messages.length : ℤ) then
    messages.drop (messages.length - limit.toNat)
  else messages

/-- Embedding of `appendHistoryEntry` (`chatHistory.ts` lines 80-111) on
one chat record: push the entry, update `lastAccessed`, trim to the
clamped context window of the session configuration. -/
def appendHistoryEntry (cfg : AiCfgSlice) (chat : ChatHistoryRec)
    (e : HistMsg) (now : ℤ) : ChatHistoryRec :=
  let limit := clampContextWindow (.num (cfg.contextWindow : ℚ))
  ⟨appendHistoryTrim limit (chat.messages ++ [e]), now⟩

/-! ## sessionManager.ts: session lifecycle -/

/-- Lifecycle events of one session under one code: the `create` promise
resolving (which marks the session ready and authenticated,
`sessionManager.ts` lines 232-235), and the `onStateChange` events
(lines 348-497).  A `CONFLICT` destroys the session and then recreates a
fresh one under the same code; the fresh lifetime is a new trace. -/
inductive SessEvent where
  | createResolved
  | stateConnected
  | stateUnpaired
  | stateConflict
  | stateDisconnected
deriving DecidableEq

/-- Connection status slice of the session state: `ready` and the
`hasBeenAuthenticated` flag. -/
structure SessState where
  ready : Bool
  hasBeenAuthenticated : Bool
deriving DecidableEq

/-- Freshly created session state (`ensureSession`, lines 168-184):
not ready, never authenticated. -/
def initialSessionState : SessState := ⟨false, false⟩

/-- One lifecycle step.  `none` means the session has been destroyed
(removed from the registry); `destroySession` deletes the entry from the
`sessions` map.  `UNPAIRED` destroys only an authenticated session and
otherwise merely clears `ready` (lines 355-375); `DISCONNECTED` clears
`ready` and schedules a reconnect (the reconnect success is a later
`createResolved`-like event, modelled by `stateConnected`). -/
def sessionStep : Option SessState → SessEvent → Option SessState
  | none, _ => none
  | some s, .createResolved => some { s with ready := true, hasBeenAuthenticated := true }
  | some s, .stateConnected => some { s with ready := true, hasBeenAuthenticated := true }
  | some s, .stateUnpaired =>
    if s.hasBeenAuthenticated then none else some { s with ready := false }
  | some s, .stateConflict => none
  | some s, .stateDisconnected => some { s with ready := false }

/-- Run a trace of lifecycle events from a given state. -/
def runSessionFrom (st : Option SessState) (t : List SessEvent) : Option SessState :=
  t.foldl sessionStep st

/-- Run a trace of lifecycle events from the freshly created session. -/
def runSession (t : List SessEvent) : Option SessState :=
  runSessionFrom (some initialSessionState) t

/-- Event classes that mark the session authenticated (and ready). -/
def isAuthEvent : SessEvent → Bool
  | .createResolved => true
  | .stateConnected => true
  | _ => false

/-- The session reached the ready state at some point of the trace. -/
def everReady (t : List SessEvent) : Prop :=
  ∃ p, p <+: t ∧ ∃ s, runSession p = some s ∧ s.ready = true

/-! ## Concrete instances used by counterexamples and witnesses -/

/-- Buffered message used in concrete buffer states. -/
def demoQueuedMsg : QueuedMessage :=
  ⟨("s").toList, ("77@c.us").toList, .incoming, ("hi").toList, false⟩

/-- Buffer state with 10000 distinct single-message contact buffers. -/
def bigSingletonState : Buffers :=
  (List.range 10000).map (fun i => (List.replicate i 'a', [demoQueuedMsg]))

/-- Arguments of a call for a group chat message (caught by the
group/broadcast guard). -/
def groupCallArgs : QueueArgs :=
  { sessionCode := ("s").toList, contactId := ("g@g.us").toList,
    direction := .incoming, message := ("hi").toList, isGroup := true }

/-- Arguments of a valid personal chat message. -/
def validCallArgs : QueueArgs :=
  { sessionCode := ("s").toList, contactId := ("77@c.us").toList,
    direction := .incoming, message := ("hi").toList }

/-- Buffer state with a single contact holding 10000 buffered messages. -/
def capBufferState : Buffers :=
  [(("s::77@c.us").toList, List.replicate 10000 demoQueuedMsg)]

/-- Buffer state with a single two-message contact buffer. -/
def twoBufferState : Buffers := [(("s::77@c.us").toList, [demoQueuedMsg, demoQueuedMsg])]

/-- Chat id used in the history-ring states below. -/
def demoChatKey : Str := ("77@c.us").toList

/-- In-memory history message used in concrete states. -/
def demoHistMsg : HistMsg := ⟨.user, ("hello").toList, 0⟩

/-- Session with context window 50 and one chat holding 30 ring
messages — reachable by 30 appends under the configured window 50. -/
def demoSession : SessionSlice :=
  ⟨⟨50⟩, [(demoChatKey, ⟨List.replicate 30 demoHistMsg, 0⟩)]⟩

/-- Persisted contact log of 1000 messages that are all incoming
(`User: ` labelled): no examples are extractable. -/
def userOnly1000 : List StoredMsg := List.replicate 1000 ⟨("User: hi").toList⟩

/-- Persisted contact log of 1000 messages ending in three user/reply
pairs: three examples are extractable. -/
def contactDemoMsgs : List StoredMsg :=
  List.replicate 994 ⟨("User: hi").toList⟩ ++
    [⟨("User: q1").toList⟩, ⟨("My reply: a1").toList⟩,
     ⟨("User: q2").toList⟩, ⟨("My reply: a2").toList⟩,
     ⟨("User: q3").toList⟩, ⟨("My reply: a3").toList⟩]

/-- Universal corpus with one nonempty reply. -/
def univHey : List Str := [("hey").toList]

/-- Reply text of 68 characters whose trailing clause lacks terminal
punctuation (and which the algorithm never splits mid-word). -/
def fragUnterminated : Str :=
  ("One two three four five six seven eight nine ten eleven twelve. tail").toList

/-- Reply text of two sentences with no whitespace at the sentence
boundaries. -/
def fragTwoSentences : Str :=
  ("First sentence is rather long indeed and also quite winding today.Second part is long too!").toList

/-- Validity of `queueMessageForPersistence` arguments: all early-return
guards of the source fail, so the message is accepted for buffering. -/
def validQueueArgs (a : QueueArgs) : Prop :=
  a.sessionCode ≠ [] ∧ a.contactId ≠ [] ∧ a.isGroup = false ∧
  a.isBroadcast = false ∧ a.hasMedia = false ∧
  jsIncludes a.contactId broadcastTag = false ∧
  jsIncludes a.contactId statusBroadcastTag = false ∧
  jsIncludes a.contactId newsletterTag = false ∧
  sanitizeMessage a.message ≠ []

/-! # Theorems -/

section Helpers

/-- Head of a `dropWhile` result fails the predicate. -/
theorem not_of_dropWhile_cons {p : Char → Bool} {s : Str} {c : Char} {t : Str}
    (h : s.dropWhile p = c :: t) : p c = false := by
  induction s with
  | nil => simp at h
  | cons x xs ih =>
    rw [List.dropWhile_cons] at h
    by_cases hx : p x
    · exact ih (by simpa [hx] using h)
    · obtain ⟨rfl, -⟩ := by simpa [hx] using h
      simpa using hx

/-- Dropping from the front of a list with a kept last element. -/
theorem dropWhile_append_last (p : Char → Bool) (xs : Str) (a : Char)
    (h : p a = false) : (xs ++ [a]).dropWhile p = xs.dropWhile p ++ [a] := by
  induction xs with
  | nil => simp [List.dropWhile_cons, h]
  | cons x xs ih =>
    by_cases hx : p x <;> simp [List.dropWhile_cons, hx, ih]

/-- Trimming a string with a non-whitespace first character keeps it. -/
theorem jsTrim_cons (c : Char) (t : Str) (h : isWsChar c = false) :
    jsTrim (c :: t) = c :: (t.reverse.dropWhile isWsChar).reverse := by
  unfold jsTrim
  rw [List.dropWhile_cons, if_neg (by simp [h]), List.reverse_cons,
    dropWhile_append_last _ _ _ h, List.reverse_append]
  simp

/-- Trimming is idempotent. -/
theorem jsTrim_idem (s : Str) : jsTrim (jsTrim s) = jsTrim s := by
  have h2 : (jsTrim s).reverse.dropWhile isWsChar = (jsTrim s).reverse := by
    unfold jsTrim
    rw [List.reverse_reverse]
    exact List.dropWhile_idempotent _ _
  have h1 : (jsTrim s).dropWhile isWsChar = jsTrim s := by
    have hs : jsTrim s =
        ((s.dropWhile isWsChar).reverse.dropWhile isWsChar).reverse := rfl
    cases hu : s.dropWhile isWsChar with
    | nil => rw [hs, hu]; simp
    | cons c t =>
      have hc : isWsChar c = false := not_of_dropWhile_cons hu
      have : jsTrim s = jsTrim (c :: t) := by
        rw [hs, hu]
        unfold jsTrim
        rw [List.dropWhile_cons, if_neg (by simp [hc])]
      rw [this, jsTrim_cons c t hc, List.dropWhile_cons, if_neg (by simp [hc])]
  have hdef : jsTrim (jsTrim s) =
      (((jsTrim s).dropWhile isWsChar).reverse.dropWhile isWsChar).reverse := rfl
  rw [hdef, h1, h2, List.reverse_reverse]

/-- Mapping trim over already-trimmed nonempty strings and filtering
empties is the identity. -/
theorem mapTrim_filter_eq_self {l : List Str}
    (h : ∀ x ∈ l, jsTrim x = x ∧ x ≠ []) :
    (l.map jsTrim).filter (· ≠ []) = l := by
  induction l with
  | nil => rfl
  | cons x xs ih =>
    obtain ⟨hx, hxne⟩ := h x (List.mem_cons_self x xs)
    simp only [List.map_cons, List.filter_cons, hx]
    rw [if_pos (by simpa using hxne), ih (fun y hy => h y (List.mem_cons_of_mem _ hy))]

/-- Membership in a negative slice implies membership in the list. -/
theorem mem_of_mem_jsSliceNeg {n : Nat} {l : List α} {x : α}
    (h : x ∈ jsSliceNeg n l) : x ∈ l := by
  unfold jsSliceNeg at h
  by_cases hn : n = 0
  · simpa [hn] using h
  · rw [if_neg hn] at h
    exact List.mem_of_mem_drop h

/-- Length of a negative slice is at most the original length. -/
theorem length_jsSliceNeg_le (n : Nat) (l : List α) :
    (jsSliceNeg n l).length ≤ l.length := by
  unfold jsSliceNeg
  by_cases hn : n = 0 <;> simp [hn]

/-- A nonzero negative slice of a nonempty list is nonempty. -/
theorem jsSliceNeg_ne_nil {n : Nat} {l : List α} (hn : n ≠ 0) (hl : l ≠ []) :
    jsSliceNeg n l ≠ [] := by
  unfold jsSliceNeg
  rw [if_neg hn]
  intro h
  have hlen := congrArg List.length h
  simp only [List.length_drop, List.length_nil] at hlen
  have : 0 < l.length := List.length_pos.mpr hl
  omega

end Helpers

/-- C7: for every input, `clampContextWindow` yields a value in
`[10, 1000]`; a NaN-coercing input yields the default 50, inputs below 10
yield 10, inputs above 1000 yield 1000, and in-range numeric inputs are
returned rounded to the nearest integer (half rounding up,
`Math.round(x) = ⌊x + 1/2⌋`). -/
theorem clampContextWindow_spec :
    (∀ v, 10 ≤ clampContextWindow v ∧ clampContextWindow v ≤ 1000) ∧
    clampContextWindow .nan = 50 ∧
    (∀ q : ℚ, q < 10 → clampContextWindow (.num q) = 10) ∧
    (∀ q : ℚ, 1000 < q → clampContextWindow (.num q) = 1000) ∧
    (∀ q : ℚ, 10 ≤ q → q ≤ 1000 → clampContextWindow (.num q) = ⌊q + 1/2⌋) := by
  have hdef : ∀ q : ℚ, 10 ≤ q → q ≤ 1000 →
      clampContextWindow (.num q) = ⌊q + 1/2⌋ := by
    intro q h10 h1000
    simp only [clampContextWindow, MIN_CONTEXT_WINDOW, MAX_CONTEXT_WINDOW]
    rw [if_neg (by push_cast; linarith), if_neg (by push_cast; linarith)]
  refine ⟨?_, rfl, ?_, ?_, hdef⟩
  · intro v
    cases v with
    | nan => simp [clampContextWindow, DEFAULT_CONTEXT_WINDOW]
    | num q =>
      by_cases h10 : q < 10
      · simp [clampContextWindow, MIN_CONTEXT_WINDOW, MAX_CONTEXT_WINDOW, h10]
      · by_cases h1000 : (1000 : ℚ) < q
        · simp only [clampContextWindow, MIN_CONTEXT_WINDOW, MAX_CONTEXT_WINDOW]
          rw [if_neg (by push_cast; linarith), if_pos (by push_cast; linarith)]
          omega
        · rw [hdef q (by linarith) (by linarith)]
          constructor
          · exact Int.le_floor.mpr (by push_cast; linarith)
          · have : ⌊q + 1/2⌋ < 1001 := Int.floor_lt.mpr (by push_cast; linarith)
            omega
  · intro q h
    simp only [clampContextWindow, MIN_CONTEXT_WINDOW, MAX_CONTEXT_WINDOW]
    rw [if_pos (by push_cast; linarith)]
  · intro q h
    simp only [clampContextWindow, MIN_CONTEXT_WINDOW, MAX_CONTEXT_WINDOW]
    rw [if_neg (by push_cast; linarith), if_pos (by push_cast; linarith)]

/-- Witness for C7 at the concrete inputs 7, 2000 and 18.5. -/
theorem clampContextWindow_spec_app :
    clampContextWindow (.num 7) = 10 ∧ clampContextWindow (.num 2000) = 1000 ∧
    clampContextWindow (.num (37/2)) = 19 :=
  ⟨clampContextWindow_spec.2.2.1 7 (by norm_num),
   clampContextWindow_spec.2.2.2.1 2000 (by norm_num),
   by
    rw [clampContextWindow_spec.2.2.2.2 (37/2) (by norm_num) (by norm_num)]
    norm_num⟩

/-- C6: a chat whose stop entry was recorded at time `T` is dropped by the
stop-list check at every time strictly before `T + 24h` (with the list
unchanged), and at `T + 24h` or later is not dropped while the expired
entry is removed from the list. -/
theorem stopList_expiry (stopList : StopList) (chatId : Str) (T now : ℤ)
    (hget : stopList.lookup chatId = some T) (hT : 0 < T) :
    (now < T + STOP_TIMEOUT_MS →
      stopListCheck stopList chatId now = (true, stopList)) ∧
    (T + STOP_TIMEOUT_MS ≤ now →
      stopListCheck stopList chatId now = (false, assocErase stopList chatId)) := by
  constructor
  · intro hnow
    simp only [stopListCheck, hget]
    rw [if_pos ⟨by omega, by omega⟩]
  · intro hnow
    simp only [stopListCheck, hget]
    rw [if_neg (by rintro ⟨-, h2⟩; omega), if_pos (by omega)]

/-- Witness for C6: entry set at time 1000, queried one millisecond before
expiry and exactly at expiry. -/
theorem stopList_expiry_app :
    stopListCheck [(("77@c.us").toList, 1000)] (("77@c.us").toList)
        (1000 + STOP_TIMEOUT_MS - 1) = (true, [(("77@c.us").toList, 1000)]) ∧
    stopListCheck [(("77@c.us").toList, 1000)] (("77@c.us").toList)
        (1000 + STOP_TIMEOUT_MS) =
      (false, assocErase [(("77@c.us").toList, 1000)] (("77@c.us").toList)) :=
  ⟨(stopList_expiry _ _ 1000 _ (by decide) (by decide)).1 (by decide),
   (stopList_expiry _ _ 1000 _ (by decide) (by decide)).2 (by decide)⟩

/-- C10: when the owner issues `!startall` (case-insensitively, after
trimming), the global stop is deactivated and the whole per-chat stop
list is cleared, so every individually opted-out chat becomes eligible
again even inside its own 24-hour window. -/
theorem startall_clears_per_chat_stops (raw : Str) (chatId : Option Str)
    (now : ℤ) (st : CommandState)
    (h : jsToLower (jsTrim raw) = ("!startall").toList) :
    processCommands true (some raw) chatId now st = ⟨true, ⟨⟨false, 0⟩, []⟩, true⟩ := by
  have hne : jsTrim raw ≠ [] := by
    intro hnil
    rw [hnil] at h
    exact absurd h (by decide)
  simp only [processCommands]
  rw [if_neg hne]
  rw [if_neg (by rw [h]; rintro ⟨-, hcmd⟩; exact absurd hcmd (by decide))]
  rw [if_pos (by rw [h]; exact ⟨by trivial, by trivial⟩)]

/-- Witness for C10: a mixed-case padded `!StartAll` from the owner with a
nonempty stop list and an active global stop. -/
theorem startall_clears_per_chat_stops_app :
    processCommands true (some ((" !StartAll ").toList)) (some (("x@c.us").toList)) 5
      ⟨⟨true, 3⟩, [(("77@c.us").toList, 1)]⟩ = ⟨true, ⟨⟨false, 0⟩, []⟩, true⟩ :=
  startall_clears_per_chat_stops _ _ _ _ (by decide)

/-- C5: `findCustomReply` returns the response of the first rule in list
order that matches (given sanitized rules, i.e. nonempty triggers and
responses), `none` when no rule matches; match semantics per type:
`exact` is case-insensitive equality, `startsWith` case-insensitive
prefix, `regex` the precompiled pattern applied to the original-case
text, and `contains` as well as any other match type is case-insensitive
substring. -/
theorem findCustomReply_spec :
    (∀ (rules : List CustomReplyRule) (text : Str),
      (∀ r ∈ rules, r.trigger ≠ [] ∧ r.response ≠ []) →
      (∀ r ∈ rules, ruleMatches r text = false) →
      findCustomReply rules text = none) ∧
    (∀ (pre post : List CustomReplyRule) (rule : CustomReplyRule) (text : Str),
      (∀ r ∈ pre ++ rule :: post, r.trigger ≠ [] ∧ r.response ≠ []) →
      (∀ r ∈ pre, ruleMatches r text = false) →
      ruleMatches rule text = true →
      findCustomReply (pre ++ rule :: post) text = some rule.response) ∧
    (∀ (rule : CustomReplyRule) (text : Str),
      (rule.matchType = ("exact").toList →
        (ruleMatches rule text = true ↔ jsToLower text = jsToLower rule.trigger)) ∧
      (rule.matchType = ("startsWith").toList →
        (ruleMatches rule text = true ↔
          (jsToLower rule.trigger).isPrefixOf (jsToLower text) = true)) ∧
      (rule.matchType = ("regex").toList → ∀ rx, rule.regex = some rx →
        (ruleMatches rule text = true ↔ rx text = true)) ∧
      (rule.matchType ≠ ("exact").toList → rule.matchType ≠ ("startsWith").toList →
        rule.matchType ≠ ("regex").toList →
        (ruleMatches rule text = true ↔
          jsIncludes (jsToLower text) (jsToLower rule.trigger) = true))) := by
  refine ⟨?_, ?_, ?_⟩
  · intro rules text hok hnone
    induction rules with
    | nil => rfl
    | cons r rest ih =>
      obtain ⟨ht, hr⟩ := hok r (List.mem_cons_self r rest)
      show (if r.trigger = [] ∨ r.response = [] then findCustomReply rest text
        else if ruleMatches r text then some r.response
        else findCustomReply rest text) = none
      rw [if_neg (by simp [ht, hr]),
        if_neg (by simp [hnone r (List.mem_cons_self r rest)])]
      exact ih (fun x hx => hok x (List.mem_cons_of_mem _ hx))
        (fun x hx => hnone x (List.mem_cons_of_mem _ hx))
  · intro pre post rule text hok hpre hm
    induction pre with
    | nil =>
      obtain ⟨ht, hr⟩ := hok rule (List.mem_cons_self rule post)
      show (if rule.trigger = [] ∨ rule.response = [] then findCustomReply post text
        else if ruleMatches rule text then some rule.response
        else findCustomReply post text) = some rule.response
      rw [if_neg (by simp [ht, hr]), if_pos (by simp [hm])]
    | cons r rest ih =>
      obtain ⟨ht, hr⟩ := hok r (List.mem_cons_self _ _)
      show (if r.trigger = [] ∨ r.response = [] then
          findCustomReply (rest ++ rule :: post) text
        else if ruleMatches r text then some r.response
        else findCustomReply (rest ++ rule :: post) text) = some rule.response
      rw [if_neg (by simp [ht, hr]),
        if_neg (by simp [hpre r (List.mem_cons_self _ _)])]
      exact ih (fun x hx => hok x (List.mem_cons_of_mem _ hx))
        (fun x hx => hpre x (List.mem_cons_of_mem _ hx))
  · intro rule text
    refine ⟨?_, ?_, ?_, ?_⟩
    · intro hmt
      simp [ruleMatches, hmt]
    · intro hmt
      have hne : ¬ rule.matchType = ("exact").toList := by rw [hmt]; decide
      simp [ruleMatches, hmt, hne]
    · intro hmt rx hrx
      have hne1 : ¬ rule.matchType = ("exact").toList := by rw [hmt]; decide
      have hne2 : ¬ rule.matchType = ("startsWith").toList := by rw [hmt]; decide
      simp [ruleMatches, hmt, hne1, hne2, hrx]
    · intro h1 h2 h3
      simp only [ruleMatches]
      rw [if_neg h1, if_neg h2, if_neg h3]

/-- Witness for C5: two overlapping rules, the first (less specific)
`contains` rule wins over the later exact rule. -/
theorem findCustomReply_spec_app :
    findCustomReply
      [⟨("price").toList, ("$10").toList, ("contains").toList, none⟩,
       ⟨("what is the price?").toList, ("$99").toList, ("exact").toList, none⟩]
      (("what is the Price?").toList) = some (("$10").toList) :=
  findCustomReply_spec.2.1 []
    [⟨("what is the price?").toList, ("$99").toList, ("exact").toList, none⟩]
    ⟨("price").toList, ("$10").toList, ("contains").toList, none⟩
    (("what is the Price?").toList) (by decide) (by decide) (by decide)


section SessionLifecycle

/-- A destroyed session stays destroyed under further events. -/
theorem runSessionFrom_none (t : List SessEvent) : runSessionFrom none t = none := by
  induction t with
  | nil => rfl
  | cons e t ih => exact ih

/-- Running a concatenated trace is running the pieces in order. -/
theorem runSessionFrom_append (st : Option SessState) (t₁ t₂ : List SessEvent) :
    runSessionFrom st (t₁ ++ t₂) = runSessionFrom (runSessionFrom st t₁) t₂ :=
  List.foldl_append _ _ _ _

/-- A session alive after a trace was alive after every prefix. -/
theorem runSession_prefix_some {t : List SessEvent} {s : SessState}
    (h : runSession t = some s) {p : List SessEvent} (hp : p <+: t) :
    ∃ s', runSession p = some s' := by
  obtain ⟨q, rfl⟩ := hp
  cases hq : runSession p with
  | some s' => exact ⟨s', rfl⟩
  | none =>
    rw [runSession, runSessionFrom_append, ← runSession, hq,
      runSessionFrom_none] at h
    exact absurd h (by simp)

/-- The authenticated flag after a trace: it was set before, or some
event of the trace authenticated the session. -/
theorem hba_run (t : List SessEvent) : ∀ (s₀ s : SessState),
    runSessionFrom (some s₀) t = some s →
    s.hasBeenAuthenticated = (s₀.hasBeenAuthenticated || t.any isAuthEvent) := by
  induction t with
  | nil =>
    intro s₀ s h
    cases h
    simp
  | cons e t ih =>
    intro s₀ s h
    cases e with
    | createResolved =>
      have := ih _ s h
      simp [isAuthEvent, this]
    | stateConnected =>
      have := ih _ s h
      simp [isAuthEvent, this]
    | stateUnpaired =>
      have h' : runSessionFrom (sessionStep (some s₀) .stateUnpaired) t = some s := h
      by_cases hb : s₀.hasBeenAuthenticated
      · exfalso
        rw [show sessionStep (some s₀) .stateUnpaired = none by
          simp [sessionStep, hb], runSessionFrom_none] at h'
        exact absurd h' (by simp)
      · rw [show sessionStep (some s₀) .stateUnpaired =
            some { s₀ with ready := false } by simp [sessionStep, hb]] at h'
        have := ih { s₀ with ready := false } s h'
        simp [isAuthEvent, this]
    | stateConflict =>
      exfalso
      have : runSessionFrom (some s₀) (SessEvent.stateConflict :: t) = none :=
        runSessionFrom_none t
      rw [this] at h
      exact absurd h (by simp)
    | stateDisconnected =>
      have := ih { s₀ with ready := false } s h
      simp [isAuthEvent, this]

/-- The invariant that a ready session is authenticated is preserved. -/
theorem ready_imp_hba (t : List SessEvent) : ∀ (s₀ s : SessState),
    (s₀.ready = true → s₀.hasBeenAuthenticated = true) →
    runSessionFrom (some s₀) t = some s →
    (s.ready = true → s.hasBeenAuthenticated = true) := by
  induction t with
  | nil =>
    intro s₀ s h0 h
    cases h
    exact h0
  | cons e t ih =>
    intro s₀ s h0 h
    cases e with
    | createResolved => exact ih _ s (by simp) h
    | stateConnected => exact ih _ s (by simp) h
    | stateUnpaired =>
      have h' : runSessionFrom (sessionStep (some s₀) .stateUnpaired) t = some s := h
      by_cases hb : s₀.hasBeenAuthenticated
      · exfalso
        rw [show sessionStep (some s₀) .stateUnpaired = none by
          simp [sessionStep, hb], runSessionFrom_none] at h'
        exact absurd h' (by simp)
      · rw [show sessionStep (some s₀) .stateUnpaired =
            some { s₀ with ready := false } by simp [sessionStep, hb]] at h'
        exact ih { s₀ with ready := false } s (by simp [hb]) h'
    | stateConflict =>
      exfalso
      have : runSessionFrom (some s₀) (SessEvent.stateConflict :: t) = none :=
        runSessionFrom_none t
      rw [this] at h
      exact absurd h (by simp)
    | stateDisconnected =>
      exact ih { s₀ with ready := false } s (fun hx => by simp_all) h

/-- The authenticated flag holds exactly when the session was ready at
some point of the trace. -/
theorem hba_iff_everReady {t : List SessEvent} {s : SessState}
    (h : runSession t = some s) :
    s.hasBeenAuthenticated = true ↔ everReady t := by
  constructor
  · intro hb
    have hany : t.any isAuthEvent = true := by
      have hrun := hba_run t initialSessionState s h
      rw [hrun] at hb
      simpa [initialSessionState] using hb
    obtain ⟨e, he, hae⟩ := List.any_eq_true.mp hany
    obtain ⟨l₁, l₂, rfl⟩ := List.append_of_mem he
    have hpfx : l₁ ++ [e] <+: l₁ ++ e :: l₂ := ⟨l₂, by simp⟩
    obtain ⟨s₁, hs₁⟩ := runSession_prefix_some h (p := l₁) ⟨e :: l₂, rfl⟩
    have hsplit : runSession (l₁ ++ [e]) = sessionStep (some s₁) e := by
      rw [runSession, runSessionFrom_append, ← runSession, hs₁]
      rfl
    cases e with
    | createResolved =>
      refine ⟨l₁ ++ [SessEvent.createResolved], hpfx,
        { s₁ with ready := true, hasBeenAuthenticated := true }, ?_, rfl⟩
      rw [hsplit]
      rfl
    | stateConnected =>
      refine ⟨l₁ ++ [SessEvent.stateConnected], hpfx,
        { s₁ with ready := true, hasBeenAuthenticated := true }, ?_, rfl⟩
      rw [hsplit]
      rfl
    | stateUnpaired => exact absurd hae (by simp [isAuthEvent])
    | stateConflict => exact absurd hae (by simp [isAuthEvent])
    | stateDisconnected => exact absurd hae (by simp [isAuthEvent])
  · rintro ⟨p, ⟨q, rfl⟩, s', hs', hready⟩
    have hs'hba : s'.hasBeenAuthenticated = true :=
      ready_imp_hba p initialSessionState s' (by simp [initialSessionState]) hs' hready
    have hrun : runSession (p ++ q) = runSessionFrom (some s') q := by
      rw [runSession, runSessionFrom_append, ← runSession, hs']
    rw [hrun] at h
    rw [hba_run q s' s h, hs'hba]
    simp

/-- C9: after any event trace that leaves the session alive, an UNPAIRED
connection-state event destroys the session (removes it from the
registry) exactly when the session previously reached the ready state at
least once; before first authentication the event only clears the ready
flag and keeps the session registered. -/
theorem unpaired_destroys_only_after_ready (t : List SessEvent) (s : SessState)
    (h : runSession t = some s) :
    (runSession (t ++ [SessEvent.stateUnpaired]) = none ↔ everReady t) ∧
    (¬ everReady t →
      runSession (t ++ [SessEvent.stateUnpaired]) = some { s with ready := false }) := by
  have hstep : runSession (t ++ [SessEvent.stateUnpaired]) =
      sessionStep (some s) .stateUnpaired := by
    rw [runSession, runSessionFrom_append, ← runSession, h]
    rfl
  have hiff := hba_iff_everReady h
  constructor
  · rw [hstep]
    constructor
    · intro hnone
      by_cases hb : s.hasBeenAuthenticated
      · exact hiff.mp hb
      · simp [sessionStep, hb] at hnone
    · intro hev
      simp [sessionStep, hiff.mpr hev]
  · intro hev
    have hb : s.hasBeenAuthenticated = false := by
      cases hx : s.hasBeenAuthenticated with
      | true => exact absurd (hiff.mp hx) hev
      | false => rfl
    rw [hstep]
    simp [sessionStep, hb]

/-- Witness for C9: a session whose creation resolved (hence was ready
once) is destroyed by a subsequent UNPAIRED event. -/
theorem unpaired_destroys_only_after_ready_app :
    runSession ([SessEvent.createResolved] ++ [SessEvent.stateUnpaired]) = none :=
  (unpaired_destroys_only_after_ready [SessEvent.createResolved] ⟨true, true⟩ rfl).1.mpr
    ⟨[SessEvent.createResolved], ⟨[], by simp⟩, ⟨true, true⟩, rfl, rfl⟩

end SessionLifecycle

section HistoryRing

/-- C4 (code bug): the truncation loop of `updateAiConfig` never truncates
anything — the guard reads the `length` property of the `ChatHistory`
record `{ messages, lastAccessed }`, which is `undefined`, and
`undefined > limit` is always false.  After updating the context window
from 50 down to 10 on a session whose chat holds 30 ring messages, the
chat still holds 30 messages, contradicting the spec requirement that
entries exceeding the new limit are truncated at update time. -/
theorem updateAiConfig_does_not_truncate :
    (∀ (limit : ℤ) (hist : List (Str × ChatHistoryRec)),
      updateAiConfigHistoryPass limit hist = hist) ∧
    (updateAiConfig demoSession (some (.num 10))).aiConfig.contextWindow = 10 ∧
    ((updateAiConfig demoSession (some (.num 10))).chatHistory.lookup
        demoChatKey).map (fun ch => ch.messages.length) = some 30 := by
  have hpass : ∀ (limit : ℤ) (hist : List (Str × ChatHistoryRec)),
      updateAiConfigHistoryPass limit hist = hist := by
    intro limit hist
    simp [updateAiConfigHistoryPass, jsLengthProperty, jsUndefGt]
  have hclamp : clampContextWindow (.num 10) = 10 := by
    simp only [clampContextWindow, MIN_CONTEXT_WINDOW, MAX_CONTEXT_WINDOW]
    rw [if_neg (by norm_num), if_neg (by norm_num)]
    have hfl : ⌊(21 : ℚ)/2⌋ = 10 := by
      rw [Int.floor_eq_iff]
      constructor <;> norm_num
    rw [show ((10 : ℚ) + 1/2) = 21/2 by norm_num, hfl]
  refine ⟨hpass, ?_, ?_⟩
  · show clampContextWindow (.num 10) = 10
    exact hclamp
  · show ((updateAiConfigHistoryPass (clampContextWindow (.num 10))
        demoSession.chatHistory).lookup demoChatKey).map
        (fun ch => ch.messages.length) = some 30
    rw [hpass]
    decide

end HistoryRing

section PersistenceBuffers

/-- Mapping a function that fixes every member is the identity. -/
theorem map_eq_self_of {l : List α} {f : α → α} (h : ∀ x ∈ l, f x = x) :
    l.map f = l := by
  induction l with
  | nil => rfl
  | cons x xs ih =>
    rw [List.map_cons, h x (List.mem_cons_self x xs),
      ih (fun y hy => h y (List.mem_cons_of_mem _ hy))]

/-- Emergency trimming never increases the total buffered count. -/
theorem totalBuffered_trim_le (b : Buffers) :
    totalBuffered (emergencyTrimLargestBuffers b) ≤ totalBuffered b := by
  unfold totalBuffered emergencyTrimLargestBuffers
  rw [List.map_map]
  apply List.sum_le_sum
  intro kv hkv
  simp only [Function.comp_apply]
  split_ifs
  · simp only [List.length_drop]
    omega
  · exact le_rfl

/-- Emergency trimming strictly decreases the total buffered count as
soon as some buffer holds at least two messages. -/
theorem totalBuffered_trim_lt (b : Buffers) (kv : Str × List QueuedMessage)
    (hmem : kv ∈ b) (h2 : 2 ≤ kv.2.length) :
    totalBuffered (emergencyTrimLargestBuffers b) < totalBuffered b := by
  obtain ⟨h₀, rest, hsort⟩ : ∃ h₀ rest, sortByLenDesc b = h₀ :: rest := by
    cases hs : sortByLenDesc b with
    | nil =>
      have : kv ∈ sortByLenDesc b := (List.mem_insertionSort _).mpr hmem
      rw [hs] at this
      exact absurd this (by simp)
    | cons h₀ rest => exact ⟨h₀, rest, rfl⟩
  have hsorted : List.Sorted lenDescRel (sortByLenDesc b) :=
    List.sorted_insertionSort _ _
  have hmax : kv.2.length ≤ h₀.2.length := by
    have hkv : kv ∈ h₀ :: rest := hsort ▸ (List.mem_insertionSort _).mpr hmem
    rcases List.mem_cons.mp hkv with rfl | htail
    · exact le_rfl
    · rw [hsort] at hsorted
      exact List.rel_of_sorted_cons hsorted kv htail
  have h₀mem : h₀ ∈ b := by
    have : h₀ ∈ sortByLenDesc b := by rw [hsort]; exact List.mem_cons_self _ _
    exact (List.mem_insertionSort _).mp this
  have hvict : (trimVictims b).contains h₀.1 = true := by
    unfold trimVictims
    rw [hsort]
    simp
  unfold totalBuffered emergencyTrimLargestBuffers
  rw [List.map_map]
  apply List.sum_lt_sum
  · intro x hx
    simp only [Function.comp_apply]
    split_ifs
    · simp only [List.length_drop]
      omega
    · exact le_rfl
  · refine ⟨h₀, h₀mem, ?_⟩
    simp only [Function.comp_apply, hvict, if_pos, List.length_drop]
    omega

/-- Trimming a state whose buffers all hold at most one message changes
nothing: `Math.floor(len / 2)` is zero. -/
theorem trim_of_singleton_buffers (b : Buffers)
    (h : ∀ kv ∈ b, kv.2.length ≤ 1) : emergencyTrimLargestBuffers b = b := by
  unfold emergencyTrimLargestBuffers
  apply map_eq_self_of
  intro kv hkv
  have hlen := h kv hkv
  have hdrop : kv.2.length / 2 = 0 := by omega
  split_ifs
  · rw [hdrop]
    simp
  · rfl

/-- The 10000-singleton state totals exactly 10000 buffered messages. -/
theorem totalBuffered_bigSingletonState :
    totalBuffered bigSingletonState = 10000 := by
  unfold totalBuffered bigSingletonState
  rw [List.map_map]
  rw [show ((fun kv : Str × List QueuedMessage => kv.2.length) ∘
      (fun i => (List.replicate i 'a', [demoQueuedMsg]))) = fun _ => 1 from rfl]
  rw [List.map_const', List.length_range, List.sum_replicate, smul_eq_mul,
    mul_one]

/-- Counterexample for C8: with 10000 distinct one-message buffers the
global cap is reached, yet (a) the emergency trimming removes nothing —
halving each of the three largest (one-message) buffers drops
`Math.floor(1/2) = 0` messages — so the total does not strictly
decrease, and (b) a call for a group-flagged message while at the cap
triggers no flush at all. -/
theorem buffer_backpressure_counterexample :
    MAX_TOTAL_BUFFER_SIZE ≤ totalBuffered bigSingletonState ∧
    ¬ totalBuffered (emergencyTrimLargestBuffers bigSingletonState) <
        totalBuffered bigSingletonState ∧
    (queueMessageForPersistence bigSingletonState groupCallArgs).globalFlushTriggered
      = false := by
  have hsmall : ∀ kv ∈ bigSingletonState, kv.2.length ≤ 1 := by
    intro kv hkv
    obtain ⟨i, -, rfl⟩ := List.mem_map.mp hkv
    simp
  refine ⟨?_, ?_, rfl⟩
  · rw [totalBuffered_bigSingletonState]
    norm_num [MAX_TOTAL_BUFFER_SIZE]
  · rw [trim_of_singleton_buffers _ hsmall]
    exact lt_irrefl _

/-- C8 (amended): a `queueMessageForPersistence` call that accepts its
message (all validation guards fail) while the total buffered count is at
or above the global cap of 10000 triggers a forced flush attempt; when
that flush fails, the emergency trimming never increases the total
buffered count, and strictly decreases it whenever some buffer holds at
least two messages (with only one-message buffers it removes nothing). -/
theorem buffer_backpressure_amended :
    (∀ (st : Buffers) (a : QueueArgs), validQueueArgs a →
      MAX_TOTAL_BUFFER_SIZE ≤ totalBuffered st →
      (queueMessageForPersistence st a).globalFlushTriggered = true) ∧
    (∀ st : Buffers,
      totalBuffered (emergencyTrimLargestBuffers st) ≤ totalBuffered st) ∧
    (∀ (st : Buffers) (kv : Str × List QueuedMessage), kv ∈ st →
      2 ≤ kv.2.length →
      totalBuffered (emergencyTrimLargestBuffers st) < totalBuffered st) := by
  refine ⟨?_, totalBuffered_trim_le, totalBuffered_trim_lt⟩
  intro st a hvalid hcap
  obtain ⟨h1, h2, h3, h4, h5, h6, h7, h8, h9⟩ := hvalid
  have hcond : ¬ ((jsIncludes a.contactId broadcastTag ||
      jsIncludes a.contactId statusBroadcastTag ||
      jsIncludes a.contactId newsletterTag) = true) := by
    simp [h6, h7, h8]
  unfold queueMessageForPersistence
  rw [if_neg (by simp [h1, h2]), if_neg (by simp [h3, h4, h5]),
    if_neg hcond, if_neg h9]
  exact decide_eq_true hcap

/-- Total of the single 10000-message buffer state. -/
theorem totalBuffered_capBufferState : totalBuffered capBufferState = 10000 := by
  have : capBufferState =
      [(("s::77@c.us").toList, List.replicate 10000 demoQueuedMsg)] := rfl
  rw [this]
  unfold totalBuffered
  rw [List.map_cons, List.map_nil, List.sum_cons, List.sum_nil,
    List.length_replicate]
  rfl

/-- Witness for C8 (amended): a valid message arriving while one contact
buffer already holds 10000 messages triggers the forced flush, and
trimming a state with a two-message buffer strictly shrinks it. -/
theorem buffer_backpressure_amended_app :
    (queueMessageForPersistence capBufferState validCallArgs).globalFlushTriggered
        = true ∧
    totalBuffered (emergencyTrimLargestBuffers twoBufferState) <
      totalBuffered twoBufferState :=
  ⟨buffer_backpressure_amended.1 capBufferState validCallArgs
      ⟨by decide, by decide, rfl, rfl, rfl, by decide, by decide, by decide, by decide⟩
      (by rw [totalBuffered_capBufferState]; norm_num [MAX_TOTAL_BUFFER_SIZE]),
   buffer_backpressure_amended.2.2 twoBufferState
      ((("s::77@c.us").toList, [demoQueuedMsg, demoQueuedMsg]))
      (by simp [twoBufferState]) (by decide)⟩

end PersistenceBuffers

section Fragmentation

/-- C3 (amended): for replies longer than 60 characters that the sentence
pass covers completely (every character belongs to a
`.`/`!`/`?`-terminated sentence), whose sentences carry no leading or
trailing whitespace, and which do not consist of a single sentence longer
than 100 characters, concatenating the fragments of
`sendFragmentedReply` in order reconstructs the original text. -/
theorem fragmentsOf_lossless (s : Str) (h60 : 60 < s.length)
    (hcover : (sentencesOf s).join = s)
    (htrim : ∀ t ∈ sentencesOf s, jsTrim t = t ∧ t ≠ [])
    (hnot1 : ¬ ((sentencesOf s).length = 1 ∧
      100 < ((sentencesOf s).headD []).length)) :
    (fragmentsOf s).join = s := by
  have hne : sentencesOf s ≠ [] := by
    intro hnil
    rw [hnil] at hcover
    have : s = [] := by simpa using hcover.symm
    rw [this] at h60
    simp at h60
  simp only [fragmentsOf]
  rw [if_neg (by omega)]
  cases hs : sentencesOf s with
  | nil => exact absurd hs hne
  | cons a l =>
    rw [hs] at hnot1 htrim hcover
    rw [if_neg hnot1, mapTrim_filter_eq_self htrim, hcover]

/-- Counterexample for C3: a 68-character reply whose final clause has no
terminal punctuation.  The sentence regex matches only the leading
sentence, the trailing ` tail` is dropped, and the single fragment sent
is the whole first sentence (no mid-word split), so concatenating the
fragments does not reconstruct the input. -/
theorem fragmentsOf_counterexample :
    60 < fragUnterminated.length ∧
    fragmentsOf fragUnterminated =
      [("One two three four five six seven eight nine ten eleven twelve.").toList] ∧
    (fragmentsOf fragUnterminated).join ≠ fragUnterminated := by
  refine ⟨by decide, by decide, by decide⟩

/-- Witness for C3 (amended) at a concrete two-sentence reply. -/
theorem fragmentsOf_lossless_app :
    (fragmentsOf fragTwoSentences).join = fragTwoSentences :=
  fragmentsOf_lossless fragTwoSentences (by decide) (by decide) (by decide)
    (by decide)

end Fragmentation

section PersonaSelection

/-- Generic fold invariant. -/
theorem foldl_invariant {α β : Type} {f : α → β → α} {P : α → Prop}
    (hstep : ∀ a b, P a → P (f a b)) :
    ∀ (l : List β) (a : α), P a → P (l.foldl f a) := by
  intro l
  induction l with
  | nil => intro a h; exact h
  | cons b t ih => intro a h; exact ih (f a b) (hstep a b h)

/-- Replies accumulated by the extraction loop are trimmed and nonempty. -/
theorem extractStep_replies_wf (acc : ExtractAcc) (m : StoredMsg)
    (h : ∀ r ∈ acc.replies, jsTrim r = r ∧ r ≠ []) :
    ∀ r ∈ (extractStep acc m).replies, jsTrim r = r ∧ r ≠ [] := by
  simp only [extractStep]
  split_ifs
  all_goals first
  | exact h
  | (intro r hr
     rcases List.mem_append.mp hr with hin | hone
     · exact h r hin
     · have hr' := List.mem_singleton.mp hone
       subst hr'
       refine ⟨jsTrim_idem _, ?_⟩
       assumption)

/-- The extraction loop never pushes more examples than replies. -/
theorem extractStep_examples_le (acc : ExtractAcc) (m : StoredMsg)
    (h : acc.examples.length ≤ acc.replies.length) :
    (extractStep acc m).examples.length ≤ (extractStep acc m).replies.length := by
  simp only [extractStep]
  split_ifs <;> (try simp) <;> omega

/-- Source selection of `buildPersonaProfile` for well-formed nonempty
reply lists. -/
theorem buildPersonaProfile_source (src : PersonaSource) (replies : List Str)
    (examples : List PersonaExample) (lim : Nat)
    (hwf : ∀ r ∈ replies, jsTrim r = r ∧ r ≠ []) (hne : replies ≠ []) :
    (buildPersonaProfile src replies examples lim).source = src := by
  unfold buildPersonaProfile
  rw [show clean = jsTrim from rfl, mapTrim_filter_eq_self hwf, if_neg hne]

/-- Reply list produced by `extractContactPersonaData`: every element is
trimmed and nonempty, and when at least one example is produced the reply
list is nonempty. -/
theorem extract_replies_facts (msgs : List StoredMsg) (lim : Nat) :
    (∀ r ∈ (extractContactPersonaData msgs lim).replies, jsTrim r = r ∧ r ≠ []) ∧
    ((extractContactPersonaData msgs lim).examples ≠ [] →
      (extractContactPersonaData msgs lim).replies ≠ []) := by
  by_cases hnil : msgs = []
  · subst hnil
    constructor
    · intro r hr
      simp [extractContactPersonaData] at hr
    · intro h
      simp [extractContactPersonaData] at h
  · have hx : extractContactPersonaData msgs lim =
        ⟨jsSliceNeg STATS_SAMPLE_LIMIT
          ((jsSliceNeg (max (lim * 6) 60) msgs).foldl extractStep ⟨[], [], []⟩).replies,
         jsSliceNeg lim
          ((jsSliceNeg (max (lim * 6) 60) msgs).foldl extractStep ⟨[], [], []⟩).examples⟩ := by
      unfold extractContactPersonaData
      rw [if_neg hnil]
    have hwf : ∀ r ∈ ((jsSliceNeg (max (lim * 6) 60) msgs).foldl extractStep
        (⟨[], [], []⟩ : ExtractAcc)).replies, jsTrim r = r ∧ r ≠ [] :=
      foldl_invariant
        (P := fun a : ExtractAcc => ∀ r ∈ a.replies, jsTrim r = r ∧ r ≠ [])
        extractStep_replies_wf _ _ (by intro r hr; simp at hr)
    have hle : ((jsSliceNeg (max (lim * 6) 60) msgs).foldl extractStep
          (⟨[], [], []⟩ : ExtractAcc)).examples.length ≤
        ((jsSliceNeg (max (lim * 6) 60) msgs).foldl extractStep
          (⟨[], [], []⟩ : ExtractAcc)).replies.length :=
      foldl_invariant
        (P := fun a : ExtractAcc => a.examples.length ≤ a.replies.length)
        extractStep_examples_le _ _ (by simp)
    constructor
    · intro r hr
      have hr' : r ∈ jsSliceNeg STATS_SAMPLE_LIMIT
          ((jsSliceNeg (max (lim * 6) 60) msgs).foldl extractStep
            (⟨[], [], []⟩ : ExtractAcc)).replies := by
        rw [hx] at hr
        exact hr
      exact hwf r (mem_of_mem_jsSliceNeg hr')
    · intro hne
      have hne' : jsSliceNeg lim
          ((jsSliceNeg (max (lim * 6) 60) msgs).foldl extractStep
            (⟨[], [], []⟩ : ExtractAcc)).examples ≠ [] := by
        rw [hx] at hne
        exact hne
      have hex : ((jsSliceNeg (max (lim * 6) 60) msgs).foldl extractStep
          (⟨[], [], []⟩ : ExtractAcc)).examples ≠ [] := by
        intro hc
        rw [hc] at hne'
        exact hne' (by simp [jsSliceNeg])
      have hpos : 0 < ((jsSliceNeg (max (lim * 6) 60) msgs).foldl extractStep
          (⟨[], [], []⟩ : ExtractAcc)).replies.length := by
        have := List.length_pos.mpr hex
        omega
      rw [hx]
      show jsSliceNeg STATS_SAMPLE_LIMIT
          ((jsSliceNeg (max (lim * 6) 60) msgs).foldl extractStep
            (⟨[], [], []⟩ : ExtractAcc)).replies ≠ []
      exact jsSliceNeg_ne_nil (by norm_num [STATS_SAMPLE_LIMIT])
        (List.length_pos.mp hpos)

/-- C1 (amended): the persona profile source selection of
`loadPersonaProfile`.  When the post-import contact log holds at least
1000 messages and at least 3 examples are extractable, the source is
`contact`; otherwise (fewer than 1000 messages or fewer than 3 examples),
the source is `universal` when the universal corpus holds at least one
non-blank reply, and `bootstrap` when it holds none. -/
theorem personaSourceSelection (msgs : List StoredMsg) (univ : List Str)
    (cw : Nat) :
    (CONTACT_PERSONA_MIN_MESSAGES ≤ msgs.length →
      3 ≤ (extractContactPersonaData msgs (exampleLimitOf cw)).examples.length →
      (loadPersonaProfile msgs univ cw).source = .contact) ∧
    (¬ (CONTACT_PERSONA_MIN_MESSAGES ≤ msgs.length ∧
        3 ≤ (extractContactPersonaData msgs (exampleLimitOf cw)).examples.length) →
      (univ.map jsTrim).filter (· ≠ []) ≠ [] →
      (loadPersonaProfile msgs univ cw).source = .universal) ∧
    (¬ (CONTACT_PERSONA_MIN_MESSAGES ≤ msgs.length ∧
        3 ≤ (extractContactPersonaData msgs (exampleLimitOf cw)).examples.length) →
      (univ.map jsTrim).filter (· ≠ []) = [] →
      (loadPersonaProfile msgs univ cw).source = .bootstrap) := by
  refine ⟨?_, ?_, ?_⟩
  · intro h1 h2
    have hfacts := extract_replies_facts msgs (exampleLimitOf cw)
    have hne : (extractContactPersonaData msgs (exampleLimitOf cw)).replies ≠ [] := by
      apply hfacts.2
      intro hc
      rw [hc] at h2
      simp at h2
    unfold loadPersonaProfile
    rw [if_pos ⟨h1, h2⟩]
    exact buildPersonaProfile_source _ _ _ _ hfacts.1 hne
  · intro hnot huniv
    unfold loadPersonaProfile
    rw [if_neg hnot, if_pos huniv]
    apply buildPersonaProfile_source
    · intro x hx
      obtain ⟨hmem, hxne⟩ := List.mem_filter.mp hx
      obtain ⟨u, -, rfl⟩ := List.mem_map.mp hmem
      exact ⟨jsTrim_idem u, by simpa using hxne⟩
    · exact huniv
  · intro hnot huniv
    unfold loadPersonaProfile
    rw [if_neg hnot, if_neg (by simpa using huniv)]
    rfl

/-- Counterexample for C1: a contact log of 1000 messages that are all
incoming (so no example is extractable) together with a nonempty
universal corpus.  The claimed `contact` condition fails (fewer than 3
examples) and the claimed `universal` condition also fails (the log does
not hold fewer than 1000 messages), so the claim requires `bootstrap`;
the code returns `universal`. -/
theorem personaSourceSelection_counterexample :
    CONTACT_PERSONA_MIN_MESSAGES ≤ userOnly1000.length ∧
    (extractContactPersonaData userOnly1000 (exampleLimitOf 50)).examples.length < 3 ∧
    ¬ userOnly1000.length < CONTACT_PERSONA_MIN_MESSAGES ∧
    (loadPersonaProfile userOnly1000 univHey 50).source = PersonaSource.universal ∧
    PersonaSource.universal ≠ PersonaSource.bootstrap := by
  refine ⟨by decide, by decide, by decide, by decide, by decide⟩

/-- Witness for C1 (amended): all three branches at concrete inputs — a
1000-message log ending in three user/reply pairs selects `contact`; an
empty log with corpus `[hey]` selects `universal`; an empty log with an
empty corpus selects `bootstrap`. -/
theorem personaSourceSelection_app :
    (loadPersonaProfile contactDemoMsgs univHey 50).source = .contact ∧
    (loadPersonaProfile [] univHey 50).source = .universal ∧
    (loadPersonaProfile [] [] 50).source = .bootstrap :=
  ⟨(personaSourceSelection contactDemoMsgs univHey 50).1 (by decide) (by decide),
   (personaSourceSelection [] univHey 50).2.1 (by decide) (by decide),
   (personaSourceSelection [] [] 50).2.2 (by decide) (by decide)⟩

end PersonaSelection

section HumanOnlyLearning

/-- Generic fold invariant with membership of the folded list. -/
theorem foldl_invariant_mem {α β : Type} {f : α → β → α} {P : α → Prop} :
    ∀ l : List β, (∀ a b, b ∈ l → P a → P (f a b)) → ∀ a, P a → P (l.foldl f a) := by
  intro l
  induction l with
  | nil => intro _ a h; exact h
  | cons b t ih =>
    intro hstep a h
    exact ih (fun a' b' hb' => hstep a' b' (List.mem_cons_of_mem _ hb')) (f a b)
      (hstep a b (List.mem_cons_self _ _) h)

/-- Every reply pushed by one extraction step comes from a message whose
trimmed text carries the human-reply sentinel. -/
theorem extractStep_replies_sub (acc : ExtractAcc) (m : StoredMsg) :
    ∀ r ∈ (extractStep acc m).replies, r ∈ acc.replies ∨
      humanReplyLabel.isPrefixOf (clean m.message) = true := by
  simp only [extractStep]
  split_ifs
  all_goals first
  | exact fun r hr => Or.inl hr
  | (intro r hr
     rcases List.mem_append.mp hr with hin | hone
     · exact Or.inl hin
     · right
       assumption)

/-- Every example pushed by one extraction step comes from a message
whose trimmed text carries the human-reply sentinel. -/
theorem extractStep_examples_sub (acc : ExtractAcc) (m : StoredMsg) :
    ∀ ex ∈ (extractStep acc m).examples, ex ∈ acc.examples ∨
      humanReplyLabel.isPrefixOf (clean m.message) = true := by
  simp only [extractStep]
  split_ifs
  all_goals first
  | exact fun ex hex => Or.inl hex
  | (intro ex hex
     rcases List.mem_append.mp hex with hin | hone
     · exact Or.inl hin
     · right
       assumption)

/-- Every reply produced by `extractContactPersonaData` originates from a
message whose trimmed text carries the human-reply sentinel. -/
theorem extract_replies_provenance (msgs : List StoredMsg) (lim : Nat) :
    ∀ r ∈ (extractContactPersonaData msgs lim).replies,
      ∃ m ∈ msgs, humanReplyLabel.isPrefixOf (clean m.message) = true := by
  intro r hr
  by_cases hnil : msgs = []
  · subst hnil
    simp [extractContactPersonaData] at hr
  · have hr' : r ∈ jsSliceNeg STATS_SAMPLE_LIMIT
        ((jsSliceNeg (max (lim * 6) 60) msgs).foldl extractStep
          (⟨[], [], []⟩ : ExtractAcc)).replies := by
      unfold extractContactPersonaData at hr
      rw [if_neg hnil] at hr
      exact hr
    have hinv := foldl_invariant_mem
      (P := fun a : ExtractAcc => ∀ x ∈ a.replies,
        ∃ m ∈ jsSliceNeg (max (lim * 6) 60) msgs,
          humanReplyLabel.isPrefixOf (clean m.message) = true)
      (jsSliceNeg (max (lim * 6) 60) msgs)
      (by
        intro a b hb hP x hx
        rcases extractStep_replies_sub a b x hx with hin | hpre
        · exact hP x hin
        · exact ⟨b, hb, hpre⟩)
      ⟨[], [], []⟩ (by intro x hx; simp at hx)
    obtain ⟨m, hm, hpre⟩ := hinv r (mem_of_mem_jsSliceNeg hr')
    exact ⟨m, mem_of_mem_jsSliceNeg hm, hpre⟩

/-- Every example produced by `extractContactPersonaData` originates from
a message whose trimmed text carries the human-reply sentinel. -/
theorem extract_examples_provenance (msgs : List StoredMsg) (lim : Nat) :
    ∀ ex ∈ (extractContactPersonaData msgs lim).examples,
      ∃ m ∈ msgs, humanReplyLabel.isPrefixOf (clean m.message) = true := by
  intro ex hex
  by_cases hnil : msgs = []
  · subst hnil
    simp [extractContactPersonaData] at hex
  · have hex' : ex ∈ jsSliceNeg lim
        ((jsSliceNeg (max (lim * 6) 60) msgs).foldl extractStep
          (⟨[], [], []⟩ : ExtractAcc)).examples := by
      unfold extractContactPersonaData at hex
      rw [if_neg hnil] at hex
      exact hex
    have hinv := foldl_invariant_mem
      (P := fun a : ExtractAcc => ∀ x ∈ a.examples,
        ∃ m ∈ jsSliceNeg (max (lim * 6) 60) msgs,
          humanReplyLabel.isPrefixOf (clean m.message) = true)
      (jsSliceNeg (max (lim * 6) 60) msgs)
      (by
        intro a b hb hP x hx
        rcases extractStep_examples_sub a b x hx with hin | hpre
        · exact hP x hin
        · exact ⟨b, hb, hpre⟩)
      ⟨[], [], []⟩ (by intro x hx; simp at hx)
    obtain ⟨m, hm, hpre⟩ := hinv ex (mem_of_mem_jsSliceNeg hex')
    exact ⟨m, mem_of_mem_jsSliceNeg hm, hpre⟩

/-- A stored label whose trimmed text carries the human-reply sentinel
can only come from a human-written outgoing message: the incoming label
starts with `U` and the AI label with `A`, never with `M`. -/
theorem label_human_only (e : QueuedMessage)
    (h : humanReplyLabel.isPrefixOf (clean (labelMessage e)) = true) :
    e.direction = .outgoing ∧ e.isAiGenerated = false := by
  cases hd : e.direction with
  | incoming =>
    exfalso
    have hlabel : labelMessage e = 'U' :: (("ser: ").toList ++ e.message) := by
      simp [labelMessage, hd]
      rfl
    have hclean : clean (labelMessage e) =
        'U' :: (((("ser: ").toList ++ e.message).reverse.dropWhile isWsChar).reverse) := by
      rw [hlabel]
      exact jsTrim_cons _ _ (by decide)
    rw [hclean, show humanReplyLabel = 'M' :: ("y reply: ").toList from rfl] at h
    simp [List.isPrefixOf] at h
  | outgoing =>
    cases hai : e.isAiGenerated with
    | false => exact ⟨rfl, rfl⟩
    | true =>
      exfalso
      have hlabel : labelMessage e = 'A' :: (("I reply: ").toList ++ e.message) := by
        simp [labelMessage, hd, hai]
        rfl
      have hclean : clean (labelMessage e) =
          'A' :: (((("I reply: ").toList ++ e.message).reverse.dropWhile isWsChar).reverse) := by
        rw [hlabel]
        exact jsTrim_cons _ _ (by decide)
      rw [hclean, show humanReplyLabel = 'M' :: ("y reply: ").toList from rfl] at h
      simp [List.isPrefixOf] at h

/-- Every stored entry comes from labelling a batch message. -/
theorem persistBatchEntries_mem {msgs : List QueuedMessage} {s : Str}
    (h : s ∈ persistBatchEntries msgs) : ∃ e ∈ msgs, s = labelMessage e := by
  unfold persistBatchEntries at h
  obtain ⟨e, he, rfl⟩ := List.mem_map.mp h
  exact ⟨e, (List.mem_filter.mp he).1, rfl⟩

/-- C2: AI-generated outgoing messages never feed style learning —
(1) the universal-corpus selection of `persistBatches` is unchanged when
AI-generated entries are removed (they are never appended);
(2) an entry stored under the `AI reply: ` label is skipped outright by
the extraction loop (it matches neither the `User: ` nor the
`My reply: ` sentinel);
(3, 4) every reply and every example produced by
`extractContactPersonaData` over the stored labels of a batch traces back
to a human-written (non-AI) outgoing message of that batch. -/
theorem humanOnlyLearning :
    (∀ msgs : List QueuedMessage,
      universalSelection msgs =
        universalSelection (msgs.filter (fun e => !e.isAiGenerated))) ∧
    (∀ (acc : ExtractAcc) (e : QueuedMessage), e.direction = .outgoing →
      e.isAiGenerated = true → extractStep acc ⟨labelMessage e⟩ = acc) ∧
    (∀ (msgs : List QueuedMessage) (lim : Nat) (r : Str),
      r ∈ (extractContactPersonaData
        ((persistBatchEntries msgs).map StoredMsg.mk) lim).replies →
      ∃ e ∈ msgs, e.direction = .outgoing ∧ e.isAiGenerated = false) ∧
    (∀ (msgs : List QueuedMessage) (lim : Nat) (ex : PersonaExample),
      ex ∈ (extractContactPersonaData
        ((persistBatchEntries msgs).map StoredMsg.mk) lim).examples →
      ∃ e ∈ msgs, e.direction = .outgoing ∧ e.isAiGenerated = false) := by
  refine ⟨?_, ?_, ?_, ?_⟩
  · intro msgs
    unfold universalSelection
    rw [List.filter_filter]
    congr 1
    apply List.filter_congr
    intro e _
    cases hd : e.direction <;> cases hai : e.isAiGenerated <;> simp [hd, hai]
  · intro acc e hd hai
    have hlabel : labelMessage e = 'A' :: (("I reply: ").toList ++ e.message) := by
      simp [labelMessage, hd, hai]
      rfl
    have hclean : clean (labelMessage e) =
        'A' :: (((("I reply: ").toList ++ e.message).reverse.dropWhile isWsChar).reverse) := by
      rw [hlabel]
      exact jsTrim_cons _ _ (by decide)
    simp only [extractStep]
    rw [hclean]
    rw [if_neg (by simp)]
    rw [if_neg (by
      rw [show userMessageLabel = 'U' :: ("ser: ").toList from rfl]
      simp [List.isPrefixOf])]
    rw [if_neg (by
      rw [show humanReplyLabel = 'M' :: ("y reply: ").toList from rfl]
      simp [List.isPrefixOf])]
  · intro msgs lim r hr
    obtain ⟨m, hm, hpre⟩ := extract_replies_provenance _ _ r hr
    obtain ⟨s, hs, rfl⟩ := List.mem_map.mp hm
    obtain ⟨e, he, rfl⟩ := persistBatchEntries_mem hs
    exact ⟨e, he, label_human_only e hpre⟩
  · intro msgs lim ex hex
    obtain ⟨m, hm, hpre⟩ := extract_examples_provenance _ _ ex hex
    obtain ⟨s, hs, rfl⟩ := List.mem_map.mp hm
    obtain ⟨e, he, rfl⟩ := persistBatchEntries_mem hs
    exact ⟨e, he, label_human_only e hpre⟩

/-- Witness for C2: a batch with one human outgoing reply, one AI
outgoing reply and one incoming message.  The extractor run over its
stored labels produces the reply `ok`, and the theorem locates its
human-written outgoing origin; the skip part is applied to the AI entry
of the batch. -/
theorem humanOnlyLearning_app :
    (∃ e ∈ [(⟨("s").toList, ("77@c.us").toList, .outgoing, ("ok").toList, false⟩ : QueuedMessage),
            ⟨("s").toList, ("77@c.us").toList, .outgoing, ("robo").toList, true⟩,
            ⟨("s").toList, ("77@c.us").toList, .incoming, ("hi").toList, false⟩],
      e.direction = .outgoing ∧ e.isAiGenerated = false) ∧
    extractStep ⟨[], [], []⟩
      ⟨labelMessage ⟨("s").toList, ("77@c.us").toList, .outgoing, ("robo").toList, true⟩⟩ =
      ⟨[], [], []⟩ :=
  ⟨humanOnlyLearning.2.2.1
      [⟨("s").toList, ("77@c.us").toList, .outgoing, ("ok").toList, false⟩,
       ⟨("s").toList, ("77@c.us").toList, .outgoing, ("robo").toList, true⟩,
       ⟨("s").toList, ("77@c.us").toList, .incoming, ("hi").toList, false⟩]
      6 (("ok").toList) (by decide),
   humanOnlyLearning.2.1 ⟨[], [], []⟩
      ⟨("s").toList, ("77@c.us").toList, .outgoing, ("robo").toList, true⟩ rfl rfl⟩

end HumanOnlyLearning
